import Mathlib

/-!
# ShowGraph: layout graph model, host graph and IL0 dump parser

A shallow embedding of the parts of `sources/Layout/aux_graph.h`,
`sources/Graph/graph.cpp`, `trunk/sources/Core/Graph/predecls.h` and
`sources/Frontend/fe_icc.cpp` that the verified properties talk about.

Conventions of the embedding:

* objects that the C++ code reaches through pointers (`AuxNode *`, `Level *`)
  live in a store `Mem` addressed by natural numbers;
* machine integers are `Nat` or `Int`; a conversion or a wrap-around is written
  out (`toInt`, `% 2 ^ 32`, `% 2 ^ 64`);
* `assert` is taken as active: a failed assertion ends the run, which is the
  `Except.error` result of the embedded function;
* the coordinate, size and barycenter fields of `AuxNode` (floating point) are
  read and written by none of the embedded operations and are left out.
-/

namespace ShowGraph

/-! ## Machine integers -/

/-- Rank type of aux_graph.h, `typedef unsigned int Rank`: a value below `2 ^ 32`. -/
abbrev Rank := Nat

/-- Rank undefined value constant, `(Rank) (-1)`. -/
def RANK_UNDEF : Rank := 2 ^ 32 - 1

/-- Largest value of `int`. -/
def INT_MAX : Nat := 2 ^ 31 - 1

/-- Conversion of an unsigned value to `int`: arithmetic modulo `2 ^ 32`, the
result taken in the range from `-2 ^ 31` to `2 ^ 31 - 1`. -/
def toInt (u : Nat) : Int :=
  if u % 2 ^ 32 < 2 ^ 31 then ((u % 2 ^ 32 : Nat) : Int)
  else ((u % 2 ^ 32 : Nat) : Int) - 2 ^ 32

/-- Conversion of an `int` to `unsigned int`, as the usual arithmetic
conversions do before an `int` is compared with an `unsigned int`. -/
def toUnsigned (i : Int) : Nat := (i % 2 ^ 32).toNat

/-! ## Layout graph: node types, nodes, edges, levels -/

/-- Types of a node (enum AuxNodeType). -/
inductive AuxNodeType where
  /-- Simple aux node that represents one node of processed graph. -/
  | AUX_NODE_SIMPLE
  /-- Aux node that represents a control point of edge in processed graph. -/
  | AUX_EDGE_CONTROL
  /-- Number of aux node types. -/
  | AUX_NODE_TYPES_NUM
  deriving DecidableEq, Repr

/-- The three spacing constants used by `AuxNode::spacing`. Their definitions
are not part of aux_graph.h, so they are parameters of the embedding. -/
structure Margins (Q : Type) where
  NODE_NODE_MARGIN : Q
  NODE_CONTROL_MARGIN : Q
  CONTROL_CONTROL_MARGIN : Q

/-- Address of an `AuxNode` object. -/
abbrev NodePtr := Nat

/-- Address of a `Level` object. -/
abbrev LevelPtr := Nat

/-- Represents nodes and edge controls in Layout (class AuxNode). The field `id`
is the `int _id` handed to the base class constructor; `priv_level` is a
pointer, `none` being `NULL`. -/
structure AuxNode where
  id : Int
  priv_priority : Int
  priv_level : Option LevelPtr
  priv_order : Int
  priv_rank : Rank
  node_type : AuxNodeType
  deriving DecidableEq, Repr

namespace AuxNode

/-- Constructor `AuxNode( AuxGraph *graph_p, int _id)`. The initialiser list
sets priority, level, order and type; it does not mention `priv_rank`, whose
initial content is whatever the memory holds, here the argument `rank_bits`. -/
def new (_id : Int) (rank_bits : Rank) : AuxNode :=
  { id := _id
    priv_priority := -1
    priv_level := none
    priv_order := -1
    priv_rank := rank_bits
    node_type := AuxNodeType.AUX_NODE_SIMPLE }

/-- Get priority of the node. -/
def priority (n : AuxNode) : Int := n.priv_priority

/-- Get rank: `inline int rank() const { return priv_rank; }`, an unsigned
value returned as `int`. -/
def rank (n : AuxNode) : Int := toInt n.priv_rank

/-- Get order. -/
def order (n : AuxNode) : Int := n.priv_order

/-- Set priority. -/
def setPriority (n : AuxNode) (p : Int) : AuxNode := { n with priv_priority := p }

/-- Set level. -/
def setLevel (n : AuxNode) (l : Option LevelPtr) : AuxNode := { n with priv_level := l }

/-- Set order. -/
def setOrder (n : AuxNode) (o : Int) : AuxNode := { n with priv_order := o }

/-- Set rank. -/
def setRank (n : AuxNode) (r : Rank) : AuxNode := { n with priv_rank := r }

/-- Set type. -/
def setType (n : AuxNode) (t : AuxNodeType) : AuxNode := { n with node_type := t }

/-- Get type; the C++ accessor is called `type`. -/
def type (n : AuxNode) : AuxNodeType := n.node_type

/-- Check if this node is a simple one. -/
def isSimple (n : AuxNode) : Bool := n.node_type == AuxNodeType.AUX_NODE_SIMPLE

/-- Check if this node is an edge control. -/
def isEdgeControl (n : AuxNode) : Bool := n.node_type == AuxNodeType.AUX_EDGE_CONTROL

/-- Set node to be an edge control. -/
def setTypeEdgeControl (n : AuxNode) : AuxNode :=
  { n with node_type := AuxNodeType.AUX_EDGE_CONTROL }

/-- Set the type of the node to simple. -/
def setTypeSimple (n : AuxNode) : AuxNode :=
  { n with node_type := AuxNodeType.AUX_NODE_SIMPLE }

/-- Return value of spacing between previous and current node due to their
types (`AuxNode::spacing`). The statement after the switch is reached by no
enumerator of `AuxNodeType`. -/
def spacing {Q : Type} [Zero Q] (m : Margins Q) (n : AuxNode) (prev_type : AuxNodeType) : Q :=
  match prev_type with
  | AuxNodeType.AUX_NODE_SIMPLE =>
      if n.node_type = AuxNodeType.AUX_NODE_SIMPLE then m.NODE_NODE_MARGIN
      else m.NODE_CONTROL_MARGIN
  | AuxNodeType.AUX_EDGE_CONTROL =>
      if n.node_type = AuxNodeType.AUX_NODE_SIMPLE then m.NODE_CONTROL_MARGIN
      else m.CONTROL_CONTROL_MARGIN
  | AuxNodeType.AUX_NODE_TYPES_NUM => 0

end AuxNode

/-- Edge of model graph used in Layout (class AuxEdge). `id`, `pred` and `succ`
are the arguments handed to the base class constructor. -/
structure AuxEdge where
  id : Int
  pred : Option NodePtr
  succ : Option NodePtr
  priv_fixed : Bool
  is_back : Bool
  deriving DecidableEq, Repr

namespace AuxEdge

/-- Constructor `AuxEdge( graph_p, _id, _pred, _succ)`: `priv_fixed( true)`,
`is_back( false)`. -/
def new (_id : Int) (_pred _succ : Option NodePtr) : AuxEdge :=
  { id := _id, pred := _pred, succ := _succ, priv_fixed := true, is_back := false }

/-- Check if an edge is fixed. -/
def isFixed (e : AuxEdge) : Bool := e.priv_fixed

/-- Set edge to be fixed. -/
def setFixed (e : AuxEdge) (fx : Bool) : AuxEdge := { e with priv_fixed := fx }

/-- Check if edge was classified as a Backedge. -/
def isBack (e : AuxEdge) : Bool := e.is_back

/-- Set edge to be a backedge. -/
def setBack (e : AuxEdge) (back : Bool) : AuxEdge := { e with is_back := back }

/-- Check whether this edge is inverted. -/
def isInverted (e : AuxEdge) : Bool := e.isBack

end AuxEdge

/-- Representation of rank level (class Level): its rank and the list of the
nodes it holds, as pointers. -/
structure Level where
  level_rank : Rank
  node_list : List NodePtr
  deriving DecidableEq, Repr

/-- The store: the `AuxNode` and `Level` objects by address. -/
structure Mem where
  node : NodePtr → AuxNode
  level : LevelPtr → Level

/-- The public mutators of a Level, as a call with its argument. -/
inductive LevelOp where
  /-- A call `add( node)`. -/
  | add (node : NodePtr)
  /-- A call `setRank( r)`. -/
  | setRank (r : Rank)
  deriving DecidableEq, Repr

namespace Level

/-- Default constructor `Level()`: rank 0 and no nodes. -/
def new : Level := { level_rank := 0, node_list := [] }

/-- Constructor with rank parameter `Level( Rank r)`. -/
def newWithRank (r : Rank) : Level := { level_rank := r, node_list := [] }

/-- Get the rank of the level. -/
def rank (l : Level) : Rank := l.level_rank

/-- Get node list. -/
def nodes (l : Level) : List NodePtr := l.node_list

/-- Set the rank of the level: `level_rank = r`, nothing else. -/
def setRank (m : Mem) (self : LevelPtr) (r : Rank) : Mem :=
  let l : Level := m.level self
  { m with level := Function.update m.level self { l with level_rank := r } }

/-- Add a node to list (`Level::add`):
`node_list.push_back( node); node->setLevel( this); node->setRank( level_rank);`. -/
def add (m : Mem) (self : LevelPtr) (node : NodePtr) : Mem :=
  let l : Level := m.level self
  let l1 : Level := { l with node_list := l.node_list ++ [node] }
  let m1 : Mem := { m with level := Function.update m.level self l1 }
  let n1 : AuxNode := (m1.node node).setLevel (some self)
  let m2 : Mem := { m1 with node := Function.update m1.node node n1 }
  let n2 : AuxNode := (m2.node node).setRank (m2.level self).level_rank
  { m2 with node := Function.update m2.node node n2 }

/-- One call of a public mutator on the level at `self`. -/
def apply (m : Mem) (self : LevelPtr) : LevelOp → Mem
  | LevelOp.add node => Level.add m self node
  | LevelOp.setRank r => Level.setRank m self r

/-- A sequence of calls of public mutators on the level at `self`, first call
first. -/
def run (m : Mem) (self : LevelPtr) : List LevelOp → Mem
  | [] => m
  | op :: ops => run (Level.apply m self op) self ops

/-- Checks a sequence of calls on the level at `self`: every `setRank( r)` in
it is made while the level holds no node, or with the rank the level already
has. -/
def rankKept (m : Mem) (self : LevelPtr) : List LevelOp → Bool
  | [] => true
  | LevelOp.add node :: ops => rankKept (Level.add m self node) self ops
  | LevelOp.setRank r :: ops =>
      ((m.level self).node_list.isEmpty || r == (m.level self).level_rank)
        && rankKept (Level.setRank m self r) self ops

/-- A sequence of `add` calls on several levels: each entry is the level the
call is made on and the node that is added, first call first. -/
def addAll (m : Mem) : List (LevelPtr × NodePtr) → Mem
  | [] => m
  | c :: cs => addAll (Level.add m c.1 c.2) cs

/-- Every node in `nodes()` of the level at `self` reports, through
`AuxNode::rank()`, the rank of the level converted to `int`. -/
def ranksAgree (m : Mem) (self : LevelPtr) : Prop :=
  ∀ n ∈ (m.level self).nodes, (m.node n).rank = toInt (m.level self).rank

/-- The stored rank of every node in the list of the level at `self` is the
rank of the level. -/
def storedRanksAgree (m : Mem) (self : LevelPtr) : Prop :=
  ∀ n ∈ (m.level self).node_list, (m.node n).priv_rank = (m.level self).level_rank

end Level

/-- A store for examples: every level is a default constructed `Level()`, the
node at address `i` is a freshly constructed node with id `i` whose rank field
holds 0. -/
def Mem.init : Mem :=
  { node := fun i => AuxNode.new (Int.ofNat i) 0
    level := fun _ => Level.new }

/-! ## Host graph: counters, creation of nodes and edges

`graph.cpp` is embedded with the declarations of `predecls.h`. The class
declaration itself (graph.h) is not among the sources; following the comments of
`predecls.h`, the two id counters have the node/edge ID type `GraphUid`
(64 bit) and the two object counters have the number type `GraphNum` (32 bit).
The DOM bookkeeping of `newNode` and `newEdge` (`setElement`, `appendChild`)
touches none of the counters or lists and is left out. -/

/-- Number of values of `GraphNum` (`quint32`). -/
def GRAPH_NUM_MOD : Nat := 2 ^ 32

/-- Number of values of `GraphUid` (`quint64`). -/
def GRAPH_UID_MOD : Nat := 2 ^ 64

/-- Maximum number of nodes, `( GraphNum)( -1)`. -/
def GRAPH_MAX_NODE_NUM : Nat := 2 ^ 32 - 1

/-- Maximum number of edges, `( GraphNum)( -1)`. -/
def GRAPH_MAX_EDGE_NUM : Nat := 2 ^ 32 - 1

/-- The ways a call ends the run instead of returning. -/
inductive Fatal where
  /-- An `assert` does not hold. -/
  | assertionFailed
  /-- An edge is constructed with a null endpoint. -/
  | nullEndpoint
  deriving DecidableEq, Repr

/-- A node of the host graph: the `int _id` that `Graph::createNode` hands to
the constructor. -/
structure Node where
  id : Int
  deriving DecidableEq, Repr

/-- An edge of the host graph: the `int _id` and the two endpoints that
`Graph::createEdge` hands to the constructor. -/
structure Edge where
  id : Int
  pred : NodePtr
  succ : NodePtr
  deriving DecidableEq, Repr

/-- Modelled from the spec: the constructor of `Edge`, declared in edge.h, which
is not among the sources. Creating an edge with a null endpoint is a contract
violation, fatal to the call; with two endpoints the edge is built from the
arguments. A pointer is an `Option`, `none` being `NULL`. -/
def Edge.new (_id : Int) (_pred _succ : Option NodePtr) : Except Fatal Edge :=
  match _pred, _succ with
  | some p, some s => Except.ok { id := _id, pred := p, succ := s }
  | _, _ => Except.error Fatal.nullEndpoint

/-- The counters and object lists of class Graph. `node_list` and `edge_list`
are the lists headed by `first_node` and `first_edge`, newest object first. -/
structure Graph where
  node_next_id : Nat
  edge_next_id : Nat
  node_num : Nat
  edge_num : Nat
  node_list : List Node
  edge_list : List Edge
  deriving DecidableEq, Repr

namespace Graph

/-- Constructor: all counters 0, no nodes, no edges. -/
def new : Graph :=
  { node_next_id := 0, edge_next_id := 0, node_num := 0, edge_num := 0
    node_list := [], edge_list := [] }

/-- Node creation routine `Graph::createNode( int _id)`. -/
def createNode (_g : Graph) (_id : Int) : Node := { id := _id }

/-- Edge creation routine `Graph::createEdge( int _id, Node *_pred, Node* _succ)`. -/
def createEdge (_g : Graph) (_id : Int) (_pred _succ : Option NodePtr) : Except Fatal Edge :=
  Edge.new _id _pred _succ

/-- Creation node in graph implementation (`Graph::newNodeImpl( GraphUid id)`).
The assertion reads `edge_next_id`. The id is converted to the `int` parameter
of `createNode`. -/
def newNodeImpl (g : Graph) (id : Nat) : Except Fatal (Graph × Node) :=
  if g.edge_next_id < GRAPH_MAX_NODE_NUM then
    let node_p := g.createNode (toInt id)
    let g1 : Graph := { g with node_list := node_p :: g.node_list }
    let g2 : Graph := { g1 with node_num := (g1.node_num + 1) % GRAPH_NUM_MOD }
    let g3 : Graph :=
      if g2.node_next_id ≤ id then { g2 with node_next_id := (id + 1) % GRAPH_UID_MOD }
      else g2
    Except.ok (g3, node_p)
  else Except.error Fatal.assertionFailed

/-- Creation node in graph (`Graph::newNode()`): `newNodeImpl( node_next_id)`. -/
def newNode (g : Graph) : Except Fatal (Graph × Node) :=
  g.newNodeImpl g.node_next_id

/-- A sequence of `k` calls of `newNode()`; the created nodes are listed in the
order of their creation. -/
def newNodes (g : Graph) : Nat → Except Fatal (Graph × List Node)
  | 0 => Except.ok (g, [])
  | k + 1 =>
    match g.newNode with
    | Except.error f => Except.error f
    | Except.ok (g1, n) =>
      match newNodes g1 k with
      | Except.error f => Except.error f
      | Except.ok (g2, ns) => Except.ok (g2, n :: ns)

/-- Create edge between two nodes (`Graph::newEdgeImpl`). The argument
`edge_next_id++` is evaluated before `createEdge` is entered. -/
def newEdgeImpl (g : Graph) (pred succ : Option NodePtr) : Except Fatal (Graph × Edge) :=
  if g.edge_next_id < GRAPH_MAX_NODE_NUM then
    let _id := g.edge_next_id
    let g1 : Graph := { g with edge_next_id := (g.edge_next_id + 1) % GRAPH_UID_MOD }
    match g1.createEdge (toInt _id) pred succ with
    | Except.error f => Except.error f
    | Except.ok edge_p =>
      let g2 : Graph := { g1 with edge_list := edge_p :: g1.edge_list }
      let g3 : Graph := { g2 with edge_num := (g2.edge_num + 1) % GRAPH_NUM_MOD }
      Except.ok (g3, edge_p)
  else Except.error Fatal.assertionFailed

/-- Create edge between two nodes (`Graph::newEdge( pred, succ)`). -/
def newEdge (g : Graph) (pred succ : Option NodePtr) : Except Fatal (Graph × Edge) :=
  g.newEdgeImpl pred succ

/-- Create edge between two nodes for a DOM element
(`Graph::newEdge( pred, succ, e)`). -/
def newEdgeOfElement (g : Graph) (pred succ : Option NodePtr) : Except Fatal (Graph × Edge) :=
  g.newEdgeImpl pred succ

/-- The body of the second loop of `Graph::readFromXML` for one `edge` element
with the attributes `source` and `target`. `n_hash` maps the ids read in the
first loop to the nodes; `n_hash[ id]` is `NULL` for an id that is not a key. -/
def readEdgeFromXML (g : Graph) (n_hash : List (Nat × NodePtr)) (pred_id succ_id : Nat) :
    Except Fatal (Graph × Edge) :=
  let pred := n_hash.lookup pred_id
  let succ := n_hash.lookup succ_id
  g.newEdgeOfElement pred succ

end Graph

/-! ## Creation of an edge, with the graph as the call leaves it

`newEdgeImpl` above gives the graph of a call that returns. The functions of
this section follow the same statements and also give the graph at the moment a
call is stopped, so that the members a failed call has already written can be
read off. -/

namespace Graph

/-- The statements of `Graph::newEdgeImpl` in their order of execution: the
graph as the call leaves it, by returning or by being stopped, and the outcome.
The argument `edge_next_id++` is evaluated, and the counter written, before
`createEdge` and the constructor of the edge are entered. -/
def newEdgeImplRun (g : Graph) (pred succ : Option NodePtr) : Graph × Except Fatal Edge :=
  if g.edge_next_id < GRAPH_MAX_NODE_NUM then
    let _id := g.edge_next_id
    let g1 : Graph := { g with edge_next_id := (g.edge_next_id + 1) % GRAPH_UID_MOD }
    match g1.createEdge (toInt _id) pred succ with
    | Except.error f => (g1, Except.error f)
    | Except.ok edge_p =>
      let g2 : Graph := { g1 with edge_list := edge_p :: g1.edge_list }
      let g3 : Graph := { g2 with edge_num := (g2.edge_num + 1) % GRAPH_NUM_MOD }
      (g3, Except.ok edge_p)
  else (g, Except.error Fatal.assertionFailed)

/-- The call `Graph::newEdge( pred, succ)` with the graph as it leaves it. -/
def newEdgeRun (g : Graph) (pred succ : Option NodePtr) : Graph × Except Fatal Edge :=
  g.newEdgeImplRun pred succ

/-- The call `Graph::newEdge( pred, succ, e)` with the graph as it leaves it. -/
def newEdgeOfElementRun (g : Graph) (pred succ : Option NodePtr) :
    Graph × Except Fatal Edge :=
  g.newEdgeImplRun pred succ

/-- The body of the second loop of `Graph::readFromXML` for one `edge` element,
with the graph as it leaves it. -/
def readEdgeFromXMLRun (g : Graph) (n_hash : List (Nat × NodePtr)) (pred_id succ_id : Nat) :
    Graph × Except Fatal Edge :=
  let pred := n_hash.lookup pred_id
  let succ := n_hash.lookup succ_id
  g.newEdgeOfElementRun pred succ

end Graph

/-! ## Cleanup of numerations and markers in the objects of the graph -/

/-- An object handed to a cleanup routine, through its `Numbered` or `Marked`
base: a node or an edge of the graph. A pointer to such an object is an
`Option`, `none` being `NULL`. -/
inductive ObjRef where
  /-- A node of the graph. -/
  | node (n : Node)
  /-- An edge of the graph. -/
  | edge (e : Edge)
  deriving DecidableEq, Repr

namespace Graph

/-- The loop `for ( n = firstNode(); isNotNullP( n); n = n->nextNode())` with
the body `clear( static_cast< .. *>( n))`: the arguments of the calls of the
cleanup routine, in order, and the value of `n` when the loop is left. -/
def clearLoopNodes : List Node → List (Option ObjRef) × Option Node
  | [] => ([], none)
  | n :: rest => (some (ObjRef.node n) :: (clearLoopNodes rest).1, (clearLoopNodes rest).2)

/-- The loop `for ( e = firstEdge(); isNotNullP( e); e = e->nextEdge())` with
the body `clear( static_cast< .. *>( n))`: the body names `n`, the variable of
the node loop, not `e`. The result lists the arguments of the calls. -/
def clearLoopEdges (n : Option Node) : List Edge → List (Option ObjRef)
  | [] => []
  | _e :: rest => n.map ObjRef.node :: clearLoopEdges n rest

/-- Implementation for numerations cleanup (`Graph::clearNumerationsInObjects`):
the pointers that `clearUnusedNumerations` is called with, in order. -/
def clearNumerationsInObjects (g : Graph) : List (Option ObjRef) :=
  let r := clearLoopNodes g.node_list
  r.1 ++ clearLoopEdges r.2 g.edge_list

/-- Implementation for markers cleanup (`Graph::clearMarkersInObjects`): the
pointers that `clearUnusedMarkers` is called with, in order. -/
def clearMarkersInObjects (g : Graph) : List (Option ObjRef) :=
  let r := clearLoopNodes g.node_list
  r.1 ++ clearLoopEdges r.2 g.edge_list

/-- Every object of the graph, each once: the calls a cleanup of all objects
consists of, up to their order. -/
def allObjects (g : Graph) : List (Option ObjRef) :=
  g.node_list.map (fun n => some (ObjRef.node n)) ++
    g.edge_list.map (fun e => some (ObjRef.edge e))

end Graph

/-! ## Directions in graph (predecls.h) -/

/-- Directions type in graph (enum GraphDir). -/
inductive GraphDir where
  /-- Upward direction. -/
  | GRAPH_DIR_UP
  /-- Downward direction. -/
  | GRAPH_DIR_DOWN
  /-- Number of directions in graph. -/
  | GRAPH_DIRS_NUM
  deriving DecidableEq, Repr

/-- The integer value of an enumerator of `GraphDir`. -/
def GraphDir.toNat : GraphDir → Nat
  | GraphDir.GRAPH_DIR_UP => 0
  | GraphDir.GRAPH_DIR_DOWN => 1
  | GraphDir.GRAPH_DIRS_NUM => 2

/-- Return direction that is reverse to given one (`RevDir`):
`assert( GRAPH_DIRS_NUM == 2);` and then
`return ( dir == GRAPH_DIR_UP)? GRAPH_DIR_DOWN: GRAPH_DIR_UP;`. -/
def RevDir (dir : GraphDir) : Except Fatal GraphDir :=
  if GraphDir.GRAPH_DIRS_NUM.toNat = 2 then
    Except.ok (if dir = GraphDir.GRAPH_DIR_UP then GraphDir.GRAPH_DIR_DOWN
               else GraphDir.GRAPH_DIR_UP)
  else Except.error Fatal.assertionFailed

/-! ## AuxNode::spacing on the integer value of its argument -/

/-- The integer value of an enumerator of `AuxNodeType`. -/
def AuxNodeType.toNat : AuxNodeType → Nat
  | AuxNodeType.AUX_NODE_SIMPLE => 0
  | AuxNodeType.AUX_EDGE_CONTROL => 1
  | AuxNodeType.AUX_NODE_TYPES_NUM => 2

/-- The body of `AuxNode::spacing` on the integer value of `prev_type`, with the
statement `return NODE_NODE_MARGIN;` that follows the switch. The second
component tells whether the result comes from that last statement. -/
def AuxNode.spacingOfValue {Q : Type} [Zero Q] (m : Margins Q) (n : AuxNode)
    (prev_type : Nat) : Q × Bool :=
  match prev_type with
  | 0 =>
      if n.node_type = AuxNodeType.AUX_NODE_SIMPLE then (m.NODE_NODE_MARGIN, false)
      else (m.NODE_CONTROL_MARGIN, false)
  | 1 =>
      if n.node_type = AuxNodeType.AUX_NODE_SIMPLE then (m.NODE_CONTROL_MARGIN, false)
      else (m.CONTROL_CONTROL_MARGIN, false)
  | 2 => (0, false)
  | _ => (m.NODE_NODE_MARGIN, true)

/-! ## IL0 dump parser (fe_icc.cpp)

`TestParser::parseLineIL0` is embedded on the outcome of its regular expression
matches: a line is given by the branch it takes and by the texts captured by
`(\d+)`. The classes of the symbol table and of the nodes (fe_iface.h) are not
among the sources; the embedding keeps of them what `parseLineIL0` stores and
reads. The text of the node (`node_text`, `setDoc`, `setPlainText`) and the
parser state flags touch neither the symbol table nor the graph and are left
out. -/

/-- An object of the symbol table: a `SymNode` with its name and its graph
node (`setNode`), or a `SymEdge` with its name and the names of its ends
(`setPred`, `setSucc`). -/
inductive SymObj where
  /-- A `SymNode`. -/
  | node (name : String) (node : Option NodePtr)
  /-- A `SymEdge`. -/
  | edge (name : String) (pred succ : String)
  deriving DecidableEq, Repr

/-- Tells whether a symbol is a `SymEdge`. -/
def SymObj.isEdge : SymObj → Bool
  | SymObj.node _ _ => false
  | SymObj.edge _ _ _ => true

/-- The call `symtab.find( name)`: the object bound to the name, `none` standing
for `symtab.end()`. The table lists its bindings newest first. -/
def symtabFind : List (String × SymObj) → String → Option SymObj
  | [], _ => none
  | (k, v) :: rest, name => if k = name then some v else symtabFind rest name

/-- The assignment `symtab[ name] = obj`. -/
def symtabSet (symtab : List (String × SymObj)) (name : String) (obj : SymObj) :
    List (String × SymObj) :=
  (name, obj) :: symtab

/-- The expression `static_cast< SymNode *>( symtab[ name])->node()`; for a
name that is not bound to a `SymNode` the result is taken as `NULL`. -/
def symtabNode (symtab : List (String × SymObj)) (name : String) : Option NodePtr :=
  match symtabFind symtab name with
  | some (SymObj.node _ p) => p
  | _ => none

/-- The value of a text of decimal digits, `none` for an empty text or a text
with another character. -/
def decimalValue (cs : List Char) : Option Nat :=
  if cs = [] then none
  else cs.foldl
    (fun acc c =>
      match acc with
      | some n => if c.isDigit then some (n * 10 + (c.toNat - 48)) else none
      | none => none)
    (some 0)

/-- The call `QString::toInt( &ok)` on a captured text: the value and `true`
for a decimal number up to INT_MAX, else 0 and `false`. -/
def qToInt (s : String) : Int × Bool :=
  match decimalValue s.data with
  | some n => if n ≤ INT_MAX then (Int.ofNat n, true) else (0, false)
  | none => (0, false)

/-- The name of the symbol of an edge, `QString("%1->%2").arg( p).arg( s)`. -/
def edgeSymName (p s : Int) : String := toString p ++ "->" ++ toString s

/-- The name of the symbol of a node, `QString("Node %1").arg( k)`. -/
def nodeSymName (k : Int) : String := "Node " ++ toString k

/-- A line as `parseLineIL0` sees it. -/
inductive Line where
  /-- The line matches `^preds:`; the texts captured by the successive matches
  of ` (\d+)` behind it. -/
  | preds (caps : List String)
  /-- The line matches `^succs:`; the captured texts as for `preds`. -/
  | succs (caps : List String)
  /-- The line matches `BBLOCK (\d+)` (and neither of the above); the captured
  text. -/
  | node (cap : String)
  /-- Any other line. -/
  | other
  deriving DecidableEq, Repr

/-- The members of `TestParser` that `parseLineIL0` works on: the symbol table,
the current node, the graph, and the IR ids given to nodes by `setIRId`
(newest first). -/
structure TestParser where
  symtab : List (String × SymObj)
  curr_node : Option NodePtr
  graph : Graph
  ir_ids : List (NodePtr × Int)
  deriving DecidableEq, Repr

namespace TestParser

/-- A parser with an empty symbol table, no current node and a new graph. -/
def init : TestParser :=
  { symtab := [], curr_node := none, graph := Graph.new, ir_ids := [] }

/-- The call `node->irId()`: the id of the last `setIRId` on the node, or
`ir0`, the value the constructor of the node leaves, when there was none. -/
def irId (ir0 : Int) (ids : List (NodePtr × Int)) (node : NodePtr) : Int :=
  match ids with
  | [] => ir0
  | (k, v) :: rest => if k = node then v else irId ir0 rest node

/-- The block marked `Add edge to symtab` and `Add edge to graph`, the same in
the two branches of `parseLineIL0`. -/
def addEdge (st : TestParser) (name pred_name succ_name : String) : Except Fatal TestParser :=
  if symtabFind st.symtab name = none
      ∧ symtabFind st.symtab pred_name ≠ none
      ∧ symtabFind st.symtab succ_name ≠ none then
    let edge := SymObj.edge name pred_name succ_name
    let symtab1 := symtabSet st.symtab name edge
    let pred := symtabNode symtab1 pred_name
    let succ := symtabNode symtab1 succ_name
    match st.graph.newEdge pred succ with
    | Except.error f => Except.error f
    | Except.ok (g, _) => Except.ok { st with symtab := symtab1, graph := g }
  else Except.ok st

/-- The loop of the `preds:` branch over the captured numbers. -/
def parsePreds (ir0 : Int) (st : TestParser) : List String → Except Fatal TestParser
  | [] => Except.ok st
  | cap :: rest =>
    match st.curr_node with
    | none => Except.error Fatal.assertionFailed
    | some curr =>
      let pred_num := (qToInt cap).1
      let name := edgeSymName pred_num (irId ir0 st.ir_ids curr)
      let pred_name := nodeSymName pred_num
      let succ_name := nodeSymName (irId ir0 st.ir_ids curr)
      match st.addEdge name pred_name succ_name with
      | Except.error f => Except.error f
      | Except.ok st1 => parsePreds ir0 st1 rest

/-- The loop of the `succs:` branch over the captured numbers. -/
def parseSuccs (ir0 : Int) (st : TestParser) : List String → Except Fatal TestParser
  | [] => Except.ok st
  | cap :: rest =>
    match st.curr_node with
    | none => Except.error Fatal.assertionFailed
    | some curr =>
      let pred_num := (qToInt cap).1
      let name := edgeSymName (irId ir0 st.ir_ids curr) pred_num
      let pred_name := nodeSymName (irId ir0 st.ir_ids curr)
      let succ_name := nodeSymName pred_num
      match st.addEdge name pred_name succ_name with
      | Except.error f => Except.error f
      | Except.ok st1 => parseSuccs ir0 st1 rest

/-- The `BBLOCK` branch: a node that is not yet in the symbol table is created
in the graph, becomes the current node and gets its symbol. The address of the
new graph node is the number of nodes created before it. -/
def parseNode (st : TestParser) (cap : String) : Except Fatal TestParser :=
  let ir_id := (qToInt cap).1
  let good_id := (qToInt cap).2
  let name := "Node " ++ cap
  if symtabFind st.symtab name = none then
    match st.graph.newNode with
    | Except.error f => Except.error f
    | Except.ok (g, _) =>
      let curr : NodePtr := st.graph.node_list.length
      let node := SymObj.node name (some curr)
      Except.ok
        { symtab := symtabSet st.symtab name node
          curr_node := some curr
          graph := g
          ir_ids := if good_id then (curr, ir_id) :: st.ir_ids else st.ir_ids }
  else Except.ok st

/-- The function `TestParser::parseLineIL0`. -/
def parseLineIL0 (ir0 : Int) (st : TestParser) : Line → Except Fatal TestParser
  | Line.preds caps => parsePreds ir0 st caps
  | Line.succs caps => parseSuccs ir0 st caps
  | Line.node cap => parseNode st cap
  | Line.other => Except.ok st

/-- A sequence of lines fed to `parseLineIL0`, first line first. -/
def parseLines (ir0 : Int) (st : TestParser) : List Line → Except Fatal TestParser
  | [] => Except.ok st
  | line :: rest =>
    match parseLineIL0 ir0 st line with
    | Except.error f => Except.error f
    | Except.ok st1 => parseLines ir0 st1 rest

/-- The ends of the edges of the graph, as pairs of node addresses. -/
def edgeEnds (st : TestParser) : List (NodePtr × NodePtr) :=
  st.graph.edge_list.map (fun e => (e.pred, e.succ))

/-- The relation between the symbol table and the graph that `parseLineIL0`
keeps: the node symbols name distinct nodes of the graph; every edge of the graph
joins the nodes of two symbols `Node p` and `Node s` for which the symbol `p->s`
is in the table; no two edges have the same ends; no name is bound twice; there
are as many edges as edge symbols. -/
structure Inv (st : TestParser) : Prop where
  node_bound : ∀ k p, symtabNode st.symtab k = some p → p < st.graph.node_list.length
  node_inj : ∀ k1 k2 p, symtabNode st.symtab k1 = some p →
    symtabNode st.symtab k2 = some p → k1 = k2
  edge_sym : ∀ e ∈ st.graph.edge_list, ∃ p s : Int,
    symtabNode st.symtab (nodeSymName p) = some e.pred ∧
    symtabNode st.symtab (nodeSymName s) = some e.succ ∧
    symtabFind st.symtab (edgeSymName p s) ≠ none
  ends_nodup : st.edgeEnds.Nodup
  keys_nodup : (st.symtab.map Prod.fst).Nodup
  edge_count : st.graph.edge_list.length
    = (st.symtab.filter (fun kv => kv.2.isEdge)).length

end TestParser

/-! ## Theorems -/

/-- C1: for a node whose type is Simple or Control and a previous type that is
Simple or Control, `spacing` is NODE_NODE_MARGIN when both are Simple,
CONTROL_CONTROL_MARGIN when both are Control and NODE_CONTROL_MARGIN when exactly
one is Simple; the result is one of the three constants and is the same for any
two nodes of equal type. -/
theorem spacing_by_type_pair {Q : Type} [Zero Q] (m : Margins Q) (n : AuxNode)
    (prev_type : AuxNodeType)
    (hn : n.type = AuxNodeType.AUX_NODE_SIMPLE ∨ n.type = AuxNodeType.AUX_EDGE_CONTROL)
    (hp : prev_type = AuxNodeType.AUX_NODE_SIMPLE ∨ prev_type = AuxNodeType.AUX_EDGE_CONTROL) :
    (n.type = AuxNodeType.AUX_NODE_SIMPLE → prev_type = AuxNodeType.AUX_NODE_SIMPLE →
        n.spacing m prev_type = m.NODE_NODE_MARGIN) ∧
    (n.type = AuxNodeType.AUX_EDGE_CONTROL → prev_type = AuxNodeType.AUX_EDGE_CONTROL →
        n.spacing m prev_type = m.CONTROL_CONTROL_MARGIN) ∧
    (n.type = AuxNodeType.AUX_NODE_SIMPLE → prev_type = AuxNodeType.AUX_EDGE_CONTROL →
        n.spacing m prev_type = m.NODE_CONTROL_MARGIN) ∧
    (n.type = AuxNodeType.AUX_EDGE_CONTROL → prev_type = AuxNodeType.AUX_NODE_SIMPLE →
        n.spacing m prev_type = m.NODE_CONTROL_MARGIN) ∧
    (n.spacing m prev_type = m.NODE_NODE_MARGIN ∨
      n.spacing m prev_type = m.NODE_CONTROL_MARGIN ∨
      n.spacing m prev_type = m.CONTROL_CONTROL_MARGIN) ∧
    (∀ n2 : AuxNode, n2.type = n.type → n2.spacing m prev_type = n.spacing m prev_type) := by
  unfold AuxNode.type at hn ⊢
  refine ⟨?_, ?_, ?_, ?_, ?_, ?_⟩
  · intro h1 h2; simp [AuxNode.spacing, h1, h2]
  · intro h1 h2; simp [AuxNode.spacing, h1, h2]
  · intro h1 h2; simp [AuxNode.spacing, h1, h2]
  · intro h1 h2; simp [AuxNode.spacing, h1, h2]
  · rcases hn with h1 | h1 <;> rcases hp with h2 | h2 <;> simp [AuxNode.spacing, h1, h2]
  · intro n2 h; simp [AuxNode.spacing, h]

/-- Witness of C1: a Control node placed after a Simple node, with the margins
30, 20 and 10. -/
theorem spacing_by_type_pair_witness :
    ((AuxNode.new 0 0).setTypeEdgeControl).spacing (⟨30, 20, 10⟩ : Margins Int)
      AuxNodeType.AUX_NODE_SIMPLE = 20 :=
  (spacing_by_type_pair (⟨30, 20, 10⟩ : Margins Int) ((AuxNode.new 0 0).setTypeEdgeControl)
    AuxNodeType.AUX_NODE_SIMPLE (Or.inr rfl) (Or.inl rfl)).2.2.2.1 rfl rfl

/-- C9: a newly created AuxEdge has `isBack` false; after `setBack b` the value
of `isBack` is `b`; `isInverted` equals `isBack` in every edge state; `setFixed`
never changes `isBack` and `setBack` never changes `isFixed`. -/
theorem isInverted_iff_marked_back :
    (∀ (id : Int) (pred succ : Option NodePtr), (AuxEdge.new id pred succ).isBack = false) ∧
    (∀ (e : AuxEdge) (b : Bool), (e.setBack b).isBack = b) ∧
    (∀ e : AuxEdge, e.isInverted = e.isBack) ∧
    (∀ (e : AuxEdge) (fx : Bool), (e.setFixed fx).isBack = e.isBack) ∧
    (∀ (e : AuxEdge) (b : Bool), (e.setBack b).isFixed = e.isFixed) :=
  ⟨fun _ _ _ => rfl, fun _ _ => rfl, fun _ => rfl, fun _ _ => rfl, fun _ _ => rfl⟩

/-! ### Level::add and Level::setRank on the store -/

theorem Level.add_level_self (m : Mem) (self : LevelPtr) (node : NodePtr) :
    (Level.add m self node).level self =
      { level_rank := (m.level self).level_rank
        node_list := (m.level self).node_list ++ [node] } := by
  simp [Level.add]

theorem Level.add_level_other (m : Mem) (self l : LevelPtr) (node : NodePtr) (h : l ≠ self) :
    (Level.add m self node).level l = m.level l := by
  simp [Level.add, Function.update_noteq h]

theorem Level.add_node_self (m : Mem) (self : LevelPtr) (node : NodePtr) :
    (Level.add m self node).node node =
      { m.node node with priv_level := some self, priv_rank := (m.level self).level_rank } := by
  simp [Level.add, AuxNode.setLevel, AuxNode.setRank]

theorem Level.add_node_other (m : Mem) (self : LevelPtr) (node k : NodePtr) (h : k ≠ node) :
    (Level.add m self node).node k = m.node k := by
  simp [Level.add, Function.update_noteq h]

theorem Level.setRank_level_self (m : Mem) (self : LevelPtr) (r : Rank) :
    (Level.setRank m self r).level self =
      { level_rank := r, node_list := (m.level self).node_list } := by
  simp [Level.setRank]

theorem Level.setRank_node (m : Mem) (self : LevelPtr) (r : Rank) (k : NodePtr) :
    (Level.setRank m self r).node k = m.node k := rfl

theorem Level.storedRanksAgree_add (m : Mem) (self : LevelPtr) (node : NodePtr)
    (h : Level.storedRanksAgree m self) : Level.storedRanksAgree (Level.add m self node) self := by
  intro n hn
  rw [Level.add_level_self] at hn ⊢
  simp only [List.mem_append, List.mem_singleton] at hn
  by_cases hk : n = node
  · subst hk
    rw [Level.add_node_self]
  · rw [Level.add_node_other m self node n hk]
    rcases hn with hn | hn
    · exact h n hn
    · exact absurd hn hk

theorem Level.storedRanksAgree_run (ops : List LevelOp) :
    ∀ (m : Mem) (self : LevelPtr), Level.storedRanksAgree m self →
      Level.rankKept m self ops = true → Level.storedRanksAgree (Level.run m self ops) self := by
  induction ops with
  | nil => intro m self h _; exact h
  | cons op ops ih =>
    intro m self h hk
    cases op with
    | add node =>
      simp only [Level.rankKept] at hk
      exact ih _ self (Level.storedRanksAgree_add m self node h) hk
    | setRank r =>
      simp only [Level.rankKept, Bool.and_eq_true, Bool.or_eq_true, List.isEmpty_iff,
        beq_iff_eq] at hk
      refine ih (Level.setRank m self r) self ?_ hk.2
      intro n hn
      rw [Level.setRank_level_self] at hn ⊢
      rw [Level.setRank_node]
      rcases hk.1 with he | he
      · rw [he] at hn; exact absurd hn (List.not_mem_nil n)
      · rw [he]; exact h n hn

theorem Level.addAll_mem (cs : List (LevelPtr × NodePtr)) :
    ∀ (m : Mem) (l : LevelPtr) (n : NodePtr),
      n ∈ ((Level.addAll m cs).level l).node_list ↔ n ∈ (m.level l).node_list ∨ (l, n) ∈ cs := by
  induction cs with
  | nil => intro m l n; simp [Level.addAll]
  | cons c cs ih =>
    intro m l n
    obtain ⟨self, node⟩ := c
    simp only [Level.addAll, ih, List.mem_cons, Prod.mk.injEq]
    by_cases hl : l = self
    · subst hl
      rw [Level.add_level_self]
      simp only [List.mem_append, List.mem_singleton, true_and]
      tauto
    · rw [Level.add_level_other m self l node hl]
      simp [hl]

/-! ### Conversions between `unsigned int` and `int` -/

theorem toInt_of_le_INT_MAX (r : Nat) (h : r ≤ INT_MAX) : toInt r = (r : Int) := by
  unfold INT_MAX at h
  have h1 : r % 2 ^ 32 = r := Nat.mod_eq_of_lt (by omega)
  unfold toInt
  rw [h1, if_pos (by omega)]

theorem toInt_of_gt_INT_MAX (r : Nat) (h : INT_MAX < r) (hr : r < 2 ^ 32) :
    toInt r = (r : Int) - 2 ^ 32 := by
  unfold INT_MAX at h
  have h1 : r % 2 ^ 32 = r := Nat.mod_eq_of_lt hr
  unfold toInt
  rw [h1, if_neg (by omega)]

theorem toUnsigned_toInt (r : Nat) (hr : r < 2 ^ 32) : toUnsigned (toInt r) = r := by
  have h1 : r % 2 ^ 32 = r := Nat.mod_eq_of_lt hr
  unfold toUnsigned toInt
  rw [h1]
  split <;> omega

/-! ### The claims on levels -/

/-- C4: `Level::add` appends. Afterwards `nodes()` is the previous list followed
by the added node, so the earlier members keep their places and the length grows
by exactly one; the rank of the level is unchanged; the rank stored in the added
node is the rank of the level, and `AuxNode::rank()` returns it as an `int`. -/
theorem add_appends_and_ranks (m : Mem) (self : LevelPtr) (node : NodePtr) :
    ((Level.add m self node).level self).nodes = (m.level self).nodes ++ [node] ∧
    ((Level.add m self node).level self).nodes.take (m.level self).nodes.length
      = (m.level self).nodes ∧
    ((Level.add m self node).level self).nodes.length = (m.level self).nodes.length + 1 ∧
    ((Level.add m self node).level self).rank = (m.level self).rank ∧
    ((Level.add m self node).node node).priv_rank = ((Level.add m self node).level self).rank ∧
    ((Level.add m self node).node node).rank
      = toInt ((Level.add m self node).level self).rank := by
  simp [Level.add_level_self, Level.add_node_self, Level.nodes, Level.rank, AuxNode.rank]

/-- C2, refuted as stated: after `add( 7)` and then `setRank( 1)` on a default
constructed level, node 7 is in `nodes()` with rank 0 while the level has
rank 1. -/
theorem setRank_after_add_breaks_ranksAgree :
    7 ∈ ((Level.run Mem.init 0 [LevelOp.add 7, LevelOp.setRank 1]).level 0).nodes ∧
    ((Level.run Mem.init 0 [LevelOp.add 7, LevelOp.setRank 1]).node 7).rank = 0 ∧
    ((Level.run Mem.init 0 [LevelOp.add 7, LevelOp.setRank 1]).level 0).rank = 1 ∧
    ¬ Level.ranksAgree (Level.run Mem.init 0 [LevelOp.add 7, LevelOp.setRank 1]) 0 := by
  have h1 : 7 ∈ ((Level.run Mem.init 0 [LevelOp.add 7, LevelOp.setRank 1]).level 0).nodes := by
    decide
  have h2 : ((Level.run Mem.init 0 [LevelOp.add 7, LevelOp.setRank 1]).node 7).rank = 0 := by
    decide
  have h3 : ((Level.run Mem.init 0 [LevelOp.add 7, LevelOp.setRank 1]).level 0).rank = 1 := by
    decide
  refine ⟨h1, h2, h3, ?_⟩
  intro h
  have h4 := h 7 h1
  rw [h2, h3] at h4
  revert h4
  decide

/-- C2, amended: for a level that starts without nodes and any sequence of
`add` and `setRank` calls in which `setRank` is called only while the level
holds no node or with the rank the level already has, every node in `nodes()`
stores the rank of the level, `AuxNode::rank()` returns that rank converted to
`int`, and the two are the same number when the rank is at most INT_MAX. -/
theorem ranksAgree_of_rankKept (m : Mem) (self : LevelPtr) (ops : List LevelOp)
    (hempty : (m.level self).nodes = [])
    (hkept : Level.rankKept m self ops = true) :
    Level.storedRanksAgree (Level.run m self ops) self ∧
    Level.ranksAgree (Level.run m self ops) self ∧
    (∀ n ∈ ((Level.run m self ops).level self).nodes,
      ((Level.run m self ops).level self).rank ≤ INT_MAX →
        ((Level.run m self ops).node n).rank
          = (((Level.run m self ops).level self).rank : Int)) := by
  have h0 : Level.storedRanksAgree m self := by
    intro n hn
    simp only [Level.nodes] at hempty
    rw [hempty] at hn
    exact absurd hn (List.not_mem_nil n)
  have h := Level.storedRanksAgree_run ops m self h0 hkept
  refine ⟨h, ?_, ?_⟩
  · intro n hn
    simp only [AuxNode.rank, Level.rank]
    rw [h n hn]
  · intro n hn hle
    simp only [AuxNode.rank, Level.rank] at hle ⊢
    rw [h n hn]
    exact toInt_of_le_INT_MAX _ hle

/-- Witness of the amended C2: a level set to rank 3 while empty, then given
the nodes 7 and 8. -/
theorem ranksAgree_of_rankKept_witness :
    Level.ranksAgree
      (Level.run Mem.init 0 [LevelOp.setRank 3, LevelOp.add 7, LevelOp.add 8, LevelOp.setRank 3])
      0 :=
  (ranksAgree_of_rankKept Mem.init 0
    [LevelOp.setRank 3, LevelOp.add 7, LevelOp.add 8, LevelOp.setRank 3]
    (by decide) (by decide)).2.1

/-- C3, refuted as stated: after `add( 7)` on level 1 and then `add( 7)` on
level 2, node 7 is in the node lists of both levels. -/
theorem add_to_second_level_keeps_first :
    7 ∈ ((Level.addAll Mem.init [(1, 7), (2, 7)]).level 1).nodes ∧
    7 ∈ ((Level.addAll Mem.init [(1, 7), (2, 7)]).level 2).nodes := by
  decide

/-- C3, amended: `Level::add` removes a node from no level. After any sequence
of `add` calls on levels that start without nodes, a node is in the list of a
level exactly when it was added to that level; so no node is in the lists of
both of two levels when no node was added to both. -/
theorem levels_disjoint_of_adds_disjoint (m : Mem) (cs : List (LevelPtr × NodePtr))
    (l1 l2 : LevelPtr)
    (h1 : (m.level l1).nodes = []) (h2 : (m.level l2).nodes = []) :
    (∀ n, n ∈ ((Level.addAll m cs).level l1).nodes ↔ (l1, n) ∈ cs) ∧
    (∀ n, n ∈ ((Level.addAll m cs).level l2).nodes ↔ (l2, n) ∈ cs) ∧
    ((∀ n, ¬ ((l1, n) ∈ cs ∧ (l2, n) ∈ cs)) →
      ∀ n, ¬ (n ∈ ((Level.addAll m cs).level l1).nodes ∧
              n ∈ ((Level.addAll m cs).level l2).nodes)) := by
  simp only [Level.nodes] at h1 h2 ⊢
  have e1 : ∀ n, n ∈ ((Level.addAll m cs).level l1).node_list ↔ (l1, n) ∈ cs := by
    intro n; rw [Level.addAll_mem, h1]; simp
  have e2 : ∀ n, n ∈ ((Level.addAll m cs).level l2).node_list ↔ (l2, n) ∈ cs := by
    intro n; rw [Level.addAll_mem, h2]; simp
  refine ⟨e1, e2, ?_⟩
  intro h n hn
  exact h n ⟨(e1 n).1 hn.1, (e2 n).1 hn.2⟩

/-- Witness of the amended C3: nodes 7 and 9 added to level 1, node 8 to
level 2. -/
theorem levels_disjoint_of_adds_disjoint_witness :
    (7 ∈ ((Level.addAll Mem.init [(1, 7), (2, 8), (1, 9)]).level 1).nodes ↔
      (1, 7) ∈ [(1, 7), (2, 8), (1, 9)]) ∧
    ¬ (7 ∈ ((Level.addAll Mem.init [(1, 7), (2, 8), (1, 9)]).level 1).nodes ∧
       7 ∈ ((Level.addAll Mem.init [(1, 7), (2, 8), (1, 9)]).level 2).nodes) :=
  ⟨(levels_disjoint_of_adds_disjoint Mem.init [(1, 7), (2, 8), (1, 9)] 1 2 rfl rfl).1 7,
   (levels_disjoint_of_adds_disjoint Mem.init [(1, 7), (2, 8), (1, 9)] 1 2 rfl rfl).2.2
    (by simp) 7⟩

/-! ### The claims on rank and order lookups -/

/-- C7, refuted as stated: on a freshly constructed node `order()` returns -1
and `rank()` returns the content of the rank field, here 7; neither call
fails. -/
theorem fresh_node_lookups_return_values :
    (AuxNode.new 0 7).order = -1 ∧ (AuxNode.new 0 7).rank = 7 := by
  decide

/-- C7, amended: `AuxNode::rank()` and `AuxNode::order()` have no failing path.
In every node state they return the stored fields, `priv_rank` converted to
`int` and `priv_order`; for a freshly constructed node `order()` is the -1 of the
constructor and `rank()` is the conversion of whatever the rank field holds. -/
theorem lookups_return_stored_fields :
    (∀ n : AuxNode, n.rank = toInt n.priv_rank ∧ n.order = n.priv_order) ∧
    (∀ (id : Int) (rank_bits : Rank),
      (AuxNode.new id rank_bits).order = -1 ∧
      (AuxNode.new id rank_bits).rank = toInt rank_bits) :=
  ⟨fun _ => ⟨rfl, rfl⟩, fun _ _ => ⟨rfl, rfl⟩⟩

/-- C8, refuted as stated: after `setRank( RANK_UNDEF)`, and after `add` into a
level of rank RANK_UNDEF, `rank()` returns -1, which is negative and is not the
number RANK_UNDEF. -/
theorem rank_of_RANK_UNDEF_is_negative :
    ((AuxNode.new 0 0).setRank RANK_UNDEF).rank = -1 ∧
    ((Level.add (Level.setRank Mem.init 0 RANK_UNDEF) 0 7).node 7).rank = -1 ∧
    ¬ (0 ≤ ((AuxNode.new 0 0).setRank RANK_UNDEF).rank) ∧
    ((AuxNode.new 0 0).setRank RANK_UNDEF).rank ≠ (RANK_UNDEF : Int) := by
  decide

/-- C8, amended: for every Rank value `r` (unsigned, 32 bit), after
`setRank( r)` or `add` into a level of rank `r`, `rank()` returns `r` itself, a
value that is at least 0, when `r` is at most INT_MAX; when `r` is above INT_MAX
it returns `r - 2 ^ 32`, a negative value. In both cases the result converted
back to unsigned is `r`. -/
theorem rank_after_setRank (r : Nat) (hr : r < 2 ^ 32) (n : AuxNode) (m : Mem)
    (self : LevelPtr) (node : NodePtr) (hl : (m.level self).rank = r) :
    (r ≤ INT_MAX →
      ((n.setRank r).rank = (r : Int) ∧ 0 ≤ (n.setRank r).rank) ∧
      (((Level.add m self node).node node).rank = (r : Int) ∧
        0 ≤ ((Level.add m self node).node node).rank)) ∧
    (INT_MAX < r →
      ((n.setRank r).rank = (r : Int) - 2 ^ 32 ∧ (n.setRank r).rank < 0) ∧
      (((Level.add m self node).node node).rank = (r : Int) - 2 ^ 32 ∧
        ((Level.add m self node).node node).rank < 0)) ∧
    toUnsigned (n.setRank r).rank = r ∧
    toUnsigned ((Level.add m self node).node node).rank = r := by
  have e1 : (n.setRank r).rank = toInt r := rfl
  have e2 : ((Level.add m self node).node node).rank = toInt r := by
    rw [Level.add_node_self]
    simp only [Level.rank] at hl
    simp only [AuxNode.rank, hl]
  rw [e1, e2]
  refine ⟨?_, ?_, toUnsigned_toInt r hr, toUnsigned_toInt r hr⟩
  · intro h
    rw [toInt_of_le_INT_MAX r h]
    exact ⟨⟨rfl, Int.ofNat_nonneg r⟩, rfl, Int.ofNat_nonneg r⟩
  · intro h
    rw [toInt_of_gt_INT_MAX r h hr]
    have : (r : Int) - 2 ^ 32 < 0 := by omega
    exact ⟨⟨rfl, this⟩, rfl, this⟩

/-- Witness of the amended C8 at rank 5 and at RANK_UNDEF. -/
theorem rank_after_setRank_witness :
    ((AuxNode.new 0 0).setRank 5).rank = 5 ∧
    ((Level.add (Level.setRank Mem.init 0 RANK_UNDEF) 0 7).node 7).rank
      = (RANK_UNDEF : Int) - 2 ^ 32 :=
  ⟨((rank_after_setRank 5 (by decide) (AuxNode.new 0 0) (Level.setRank Mem.init 0 5) 0 7
      (by decide)).1 (by decide)).1.1,
   ((rank_after_setRank RANK_UNDEF (by decide) (AuxNode.new 0 0)
      (Level.setRank Mem.init 0 RANK_UNDEF) 0 7 (by decide)).2.1 (by decide)).2.1⟩

/-! ### Creation of nodes and edges in the host graph -/

theorem Graph.newNodeImpl_ok (g : Graph) (id : Nat) (h : g.edge_next_id < GRAPH_MAX_NODE_NUM) :
    g.newNodeImpl id = Except.ok
      ({ node_next_id := if g.node_next_id ≤ id then (id + 1) % GRAPH_UID_MOD else g.node_next_id
         edge_next_id := g.edge_next_id
         node_num := (g.node_num + 1) % GRAPH_NUM_MOD
         edge_num := g.edge_num
         node_list := { id := toInt id } :: g.node_list
         edge_list := g.edge_list }, { id := toInt id }) := by
  unfold Graph.newNodeImpl
  rw [if_pos h]
  by_cases hle : g.node_next_id ≤ id <;> simp [hle, Graph.createNode]

theorem Graph.newNodeImpl_assertion (g : Graph) (id : Nat)
    (h : ¬ g.edge_next_id < GRAPH_MAX_NODE_NUM) :
    g.newNodeImpl id = Except.error Fatal.assertionFailed := by
  unfold Graph.newNodeImpl
  rw [if_neg h]

theorem Graph.newEdgeImpl_ok (g : Graph) (p s : NodePtr)
    (h : g.edge_next_id < GRAPH_MAX_NODE_NUM) :
    g.newEdgeImpl (some p) (some s) = Except.ok
      ({ node_next_id := g.node_next_id
         edge_next_id := (g.edge_next_id + 1) % GRAPH_UID_MOD
         node_num := g.node_num
         edge_num := (g.edge_num + 1) % GRAPH_NUM_MOD
         node_list := g.node_list
         edge_list := { id := toInt g.edge_next_id, pred := p, succ := s } :: g.edge_list },
       { id := toInt g.edge_next_id, pred := p, succ := s }) := by
  unfold Graph.newEdgeImpl
  rw [if_pos h]
  simp [Graph.createEdge, Edge.new]

theorem Graph.newEdgeImpl_null (g : Graph) (pred succ : Option NodePtr)
    (h : pred = none ∨ succ = none) :
    ∃ f, g.newEdgeImpl pred succ = Except.error f := by
  unfold Graph.newEdgeImpl
  by_cases ha : g.edge_next_id < GRAPH_MAX_NODE_NUM
  · rw [if_pos ha]
    refine ⟨Fatal.nullEndpoint, ?_⟩
    rcases h with h | h
    · subst h; simp [Graph.createEdge, Edge.new]
    · subst h; cases pred <;> simp [Graph.createEdge, Edge.new]
  · rw [if_neg ha]
    exact ⟨Fatal.assertionFailed, rfl⟩

theorem Graph.newEdgeImplRun_returns (g : Graph) (pred succ : Option NodePtr) :
    g.newEdgeImpl pred succ =
      match g.newEdgeImplRun pred succ with
      | (g1, Except.ok e) => Except.ok (g1, e)
      | (_, Except.error f) => Except.error f := by
  unfold Graph.newEdgeImpl Graph.newEdgeImplRun
  by_cases ha : g.edge_next_id < GRAPH_MAX_NODE_NUM
  · rw [if_pos ha, if_pos ha]
    cases pred with
    | none => simp [Graph.createEdge, Edge.new]
    | some p =>
      cases succ with
      | none => simp [Graph.createEdge, Edge.new]
      | some s => simp [Graph.createEdge, Edge.new]
  · rw [if_neg ha, if_neg ha]

theorem Graph.newEdgeImplRun_null (g : Graph) (pred succ : Option NodePtr)
    (h : pred = none ∨ succ = none) :
    g.newEdgeImplRun pred succ =
      if g.edge_next_id < GRAPH_MAX_NODE_NUM then
        ({ g with edge_next_id := (g.edge_next_id + 1) % GRAPH_UID_MOD },
          Except.error Fatal.nullEndpoint)
      else (g, Except.error Fatal.assertionFailed) := by
  unfold Graph.newEdgeImplRun
  by_cases ha : g.edge_next_id < GRAPH_MAX_NODE_NUM
  · rw [if_pos ha, if_pos ha]
    rcases h with h | h
    · subst h; simp [Graph.createEdge, Edge.new]
    · subst h; cases pred <;> simp [Graph.createEdge, Edge.new]
  · rw [if_neg ha, if_neg ha]

/-- C5, refuted as stated: on a new graph `newEdgeImpl` with a null `pred` is
stopped by the constructor of the edge, and the graph it leaves has
`edge_next_id` equal to 1, not to the 0 of the new graph; the same holds for
the edge loop of `readFromXML` with an unknown `source` id. -/
theorem newEdge_null_endpoint_advances_edge_next_id :
    Graph.new.edge_next_id = 0 ∧
    (Graph.new.newEdgeImplRun none (some 0)).2 = Except.error Fatal.nullEndpoint ∧
    (Graph.new.newEdgeImplRun none (some 0)).1.edge_next_id = 1 ∧
    (Graph.new.readEdgeFromXMLRun [(1, 10), (2, 20)] 9 2).2
      = Except.error Fatal.nullEndpoint ∧
    (Graph.new.readEdgeFromXMLRun [(1, 10), (2, 20)] 9 2).1.edge_next_id = 1 :=
  ⟨rfl, rfl, by decide, rfl, by decide⟩

/-- C5, amended: with the constructor of Edge rejecting a null endpoint,
`newEdgeImpl`, `newEdge( pred, succ)` and `newEdge( pred, succ, e)` end in a
fatal failure whenever `pred` or `succ` is null, and so does the edge loop of
`readFromXML` for a `source` or `target` id that is not a key of `n_hash`. No
edge is created: the graph the stopped call leaves has the edge list,
`edge_num` and all node members of the graph it started on. `edge_next_id` is
the old one only when the call is stopped by its own assertion; otherwise the
call has already advanced it by one. -/
theorem newEdge_null_endpoint_is_fatal (g : Graph) (pred succ : Option NodePtr)
    (h : pred = none ∨ succ = none) :
    (∃ f, g.newEdgeImpl pred succ = Except.error f) ∧
    (∃ f, g.newEdge pred succ = Except.error f) ∧
    (∃ f, g.newEdgeOfElement pred succ = Except.error f) ∧
    (∀ (n_hash : List (Nat × NodePtr)) (pred_id succ_id : Nat),
      n_hash.lookup pred_id = pred → n_hash.lookup succ_id = succ →
        (∃ f, g.readEdgeFromXML n_hash pred_id succ_id = Except.error f) ∧
        g.readEdgeFromXMLRun n_hash pred_id succ_id = g.newEdgeImplRun pred succ) ∧
    g.newEdgeRun pred succ = g.newEdgeImplRun pred succ ∧
    g.newEdgeOfElementRun pred succ = g.newEdgeImplRun pred succ ∧
    (∃ f, (g.newEdgeImplRun pred succ).2 = Except.error f) ∧
    (g.newEdgeImplRun pred succ).1.edge_list = g.edge_list ∧
    (g.newEdgeImplRun pred succ).1.edge_num = g.edge_num ∧
    (g.newEdgeImplRun pred succ).1.node_list = g.node_list ∧
    (g.newEdgeImplRun pred succ).1.node_num = g.node_num ∧
    (g.newEdgeImplRun pred succ).1.node_next_id = g.node_next_id ∧
    (g.edge_next_id < GRAPH_MAX_NODE_NUM →
      (g.newEdgeImplRun pred succ).2 = Except.error Fatal.nullEndpoint ∧
      (g.newEdgeImplRun pred succ).1.edge_next_id
        = (g.edge_next_id + 1) % GRAPH_UID_MOD) ∧
    (¬ g.edge_next_id < GRAPH_MAX_NODE_NUM →
      (g.newEdgeImplRun pred succ).2 = Except.error Fatal.assertionFailed ∧
      (g.newEdgeImplRun pred succ).1.edge_next_id = g.edge_next_id) := by
  have h0 := Graph.newEdgeImpl_null g pred succ h
  have hrun := Graph.newEdgeImplRun_null g pred succ h
  refine ⟨h0, h0, h0, ?_, rfl, rfl, ?_, ?_, ?_, ?_, ?_, ?_, ?_, ?_⟩
  · intro n_hash pred_id succ_id hp hs
    constructor
    · simp only [Graph.readEdgeFromXML, Graph.newEdgeOfElement, hp, hs]
      exact h0
    · simp only [Graph.readEdgeFromXMLRun, Graph.newEdgeOfElementRun, hp, hs]
  · rw [hrun]; split
    · exact ⟨_, rfl⟩
    · exact ⟨_, rfl⟩
  · rw [hrun]; split <;> rfl
  · rw [hrun]; split <;> rfl
  · rw [hrun]; split <;> rfl
  · rw [hrun]; split <;> rfl
  · rw [hrun]; split <;> rfl
  · intro ha
    rw [hrun, if_pos ha]
    exact ⟨rfl, rfl⟩
  · intro ha
    rw [hrun, if_neg ha]
    exact ⟨rfl, rfl⟩

/-- Witness of the amended C5: in a new graph with the node ids 1 and 2 in
`n_hash`, an edge element whose `source` is the unknown id 9. -/
theorem newEdge_null_endpoint_is_fatal_witness :
    (∃ f, Graph.new.readEdgeFromXML [(1, 10), (2, 20)] 9 2 = Except.error f) ∧
    (Graph.new.newEdgeImplRun none (some 20)).1.edge_list = Graph.new.edge_list ∧
    (Graph.new.newEdgeImplRun none (some 20)).1.edge_num = Graph.new.edge_num ∧
    (Graph.new.newEdgeImplRun none (some 20)).1.edge_next_id
      = (Graph.new.edge_next_id + 1) % GRAPH_UID_MOD :=
  ⟨((newEdge_null_endpoint_is_fatal Graph.new none (some 20) (Or.inl rfl)).2.2.2.1
      [(1, 10), (2, 20)] 9 2 (by decide) (by decide)).1,
   (newEdge_null_endpoint_is_fatal Graph.new none (some 20) (Or.inl rfl)).2.2.2.2.2.2.2.1,
   (newEdge_null_endpoint_is_fatal Graph.new none (some 20) (Or.inl rfl)).2.2.2.2.2.2.2.2.1,
   ((newEdge_null_endpoint_is_fatal Graph.new none (some 20)
      (Or.inl rfl)).2.2.2.2.2.2.2.2.2.2.2.2.1 (by decide)).2⟩

/-- C6, the code at the failing inputs: with the node id counter at
GRAPH_MAX_NODE_NUM and the edge id counter at 0, `newNode()` creates a node,
whatever the object counters and lists are; with the node id counter at 1 and
the edge id counter at GRAPH_MAX_NODE_NUM, `newNode()` is stopped by the
assertion. -/
theorem newNode_guard_reads_edge_counter (nn en : Nat) (ns : List Node) (es : List Edge) :
    Graph.newNode { node_next_id := GRAPH_MAX_NODE_NUM, edge_next_id := 0, node_num := nn,
                    edge_num := en, node_list := ns, edge_list := es }
      = Except.ok
          ({ node_next_id := GRAPH_MAX_NODE_NUM + 1, edge_next_id := 0
             node_num := (nn + 1) % GRAPH_NUM_MOD, edge_num := en
             node_list := { id := -1 } :: ns, edge_list := es }, { id := -1 }) ∧
    Graph.newNode { node_next_id := 1, edge_next_id := GRAPH_MAX_NODE_NUM, node_num := nn,
                    edge_num := en, node_list := ns, edge_list := es }
      = Except.error Fatal.assertionFailed := by
  constructor
  · unfold Graph.newNode
    rw [Graph.newNodeImpl_ok _ _ (show (0 : Nat) < GRAPH_MAX_NODE_NUM by decide)]
    have e1 : toInt GRAPH_MAX_NODE_NUM = -1 := by decide
    have e2 : (GRAPH_MAX_NODE_NUM + 1) % GRAPH_UID_MOD = GRAPH_MAX_NODE_NUM + 1 := by decide
    simp [e1, e2]
  · unfold Graph.newNode
    rw [Graph.newNodeImpl_assertion _ _ (show ¬ GRAPH_MAX_NODE_NUM < GRAPH_MAX_NODE_NUM by decide)]

theorem Graph.newNode_ok (g : Graph) (h : g.edge_next_id < GRAPH_MAX_NODE_NUM) :
    g.newNode = Except.ok
      ({ node_next_id := (g.node_next_id + 1) % GRAPH_UID_MOD
         edge_next_id := g.edge_next_id
         node_num := (g.node_num + 1) % GRAPH_NUM_MOD
         edge_num := g.edge_num
         node_list := { id := toInt g.node_next_id } :: g.node_list
         edge_list := g.edge_list }, { id := toInt g.node_next_id }) := by
  unfold Graph.newNode
  rw [Graph.newNodeImpl_ok g _ h, if_pos (Nat.le_refl _)]

theorem Graph.newNodes_ok (k : Nat) :
    ∀ g : Graph, g.edge_next_id < GRAPH_MAX_NODE_NUM → g.node_next_id + k ≤ 2 ^ 31 →
      g.node_num + k < GRAPH_NUM_MOD →
      ∃ g2 ns, g.newNodes k = Except.ok (g2, ns) ∧
        ns.map Node.id = (List.range' g.node_next_id k).map Int.ofNat ∧
        g2.node_next_id = g.node_next_id + k ∧
        g2.node_num = g.node_num + k ∧
        g2.node_list = ns.reverse ++ g.node_list := by
  induction k with
  | zero => intro g _ _ _; exact ⟨g, [], rfl, by simp⟩
  | succ k ih =>
    intro g ha hid hnum
    unfold GRAPH_NUM_MOD at hnum
    have e1 : (g.node_next_id + 1) % GRAPH_UID_MOD = g.node_next_id + 1 := by
      unfold GRAPH_UID_MOD; omega
    have e2 : (g.node_num + 1) % GRAPH_NUM_MOD = g.node_num + 1 := by
      unfold GRAPH_NUM_MOD; omega
    have e3 : toInt g.node_next_id = Int.ofNat g.node_next_id :=
      toInt_of_le_INT_MAX _ (by unfold INT_MAX; omega)
    obtain ⟨g2, ns, hrun, hids, hnext, hcnt, hlist⟩ :=
      ih { node_next_id := g.node_next_id + 1
           edge_next_id := g.edge_next_id
           node_num := g.node_num + 1
           edge_num := g.edge_num
           node_list := { id := Int.ofNat g.node_next_id } :: g.node_list
           edge_list := g.edge_list } ha
        (by show g.node_next_id + 1 + k ≤ 2 ^ 31; omega)
        (by show g.node_num + 1 + k < GRAPH_NUM_MOD; unfold GRAPH_NUM_MOD; omega)
    refine ⟨g2, { id := Int.ofNat g.node_next_id } :: ns, ?_, ?_, ?_, ?_, ?_⟩
    · simp only [Graph.newNodes]
      rw [Graph.newNode_ok g ha, e1, e2, e3]
      simp only [hrun]
    · simp only [List.map_cons, hids, List.range'_succ]
    · rw [hnext]; show g.node_next_id + 1 + k = g.node_next_id + (k + 1); omega
    · rw [hcnt]; show g.node_num + 1 + k = g.node_num + (k + 1); omega
    · rw [hlist]; simp

theorem Graph.clearLoopNodes_calls (ns : List Node) :
    (Graph.clearLoopNodes ns).1 = ns.map (fun n => some (ObjRef.node n)) ∧
    (Graph.clearLoopNodes ns).2 = none := by
  induction ns with
  | nil => exact ⟨rfl, rfl⟩
  | cons n rest ih => simp [Graph.clearLoopNodes, ih.1, ih.2]

theorem Graph.clearLoopEdges_calls (n : Option Node) (es : List Edge) :
    Graph.clearLoopEdges n es = List.replicate es.length (n.map ObjRef.node) := by
  induction es with
  | nil => rfl
  | cons e rest ih => simp [Graph.clearLoopEdges, ih, List.replicate_succ]

theorem Graph.clearNumerationsInObjects_calls (g : Graph) :
    g.clearNumerationsInObjects =
      g.node_list.map (fun n => some (ObjRef.node n)) ++
        List.replicate g.edge_list.length none := by
  simp [Graph.clearNumerationsInObjects, Graph.clearLoopNodes_calls, Graph.clearLoopEdges_calls]

theorem Graph.clearMarkersInObjects_calls (g : Graph) :
    g.clearMarkersInObjects =
      g.node_list.map (fun n => some (ObjRef.node n)) ++
        List.replicate g.edge_list.length none := by
  simp [Graph.clearMarkersInObjects, Graph.clearLoopNodes_calls, Graph.clearLoopEdges_calls]

/-- C11, the code at the failing input: in the graph made by `newNode()` and
one `newEdge` from the node to itself, `clearNumerationsInObjects` and
`clearMarkersInObjects` call their cleanup routine once with the node and once
with a null pointer; the edge is not among the arguments, so the calls are not
the objects of the graph. -/
theorem clear_in_objects_skips_edges :
    (Graph.new.newNode.toOption.bind
        (fun r => (r.1.newEdge (some 0) (some 0)).toOption.map (fun q => q.1)))
      = some { node_next_id := 1, edge_next_id := 1, node_num := 1, edge_num := 1
               node_list := [{ id := 0 }]
               edge_list := [{ id := 0, pred := 0, succ := 0 }] } ∧
    Graph.clearNumerationsInObjects
        { node_next_id := 1, edge_next_id := 1, node_num := 1, edge_num := 1
          node_list := [{ id := 0 }], edge_list := [{ id := 0, pred := 0, succ := 0 }] }
      = [some (ObjRef.node { id := 0 }), none] ∧
    Graph.clearMarkersInObjects
        { node_next_id := 1, edge_next_id := 1, node_num := 1, edge_num := 1
          node_list := [{ id := 0 }], edge_list := [{ id := 0, pred := 0, succ := 0 }] }
      = [some (ObjRef.node { id := 0 }), none] ∧
    Graph.allObjects
        { node_next_id := 1, edge_next_id := 1, node_num := 1, edge_num := 1
          node_list := [{ id := 0 }], edge_list := [{ id := 0, pred := 0, succ := 0 }] }
      = [some (ObjRef.node { id := 0 }),
         some (ObjRef.edge { id := 0, pred := 0, succ := 0 })] := by
  decide

/-- C12: `RevDir` gives DOWN for UP and UP for DOWN; for each of the two
directions the result differs from the argument and reversing twice gives the
argument back; the assertion of `RevDir` fails for no argument. -/
theorem RevDir_reverses :
    RevDir GraphDir.GRAPH_DIR_UP = Except.ok GraphDir.GRAPH_DIR_DOWN ∧
    RevDir GraphDir.GRAPH_DIR_DOWN = Except.ok GraphDir.GRAPH_DIR_UP ∧
    RevDir GraphDir.GRAPH_DIR_UP ≠ Except.ok GraphDir.GRAPH_DIR_UP ∧
    RevDir GraphDir.GRAPH_DIR_DOWN ≠ Except.ok GraphDir.GRAPH_DIR_DOWN ∧
    (RevDir GraphDir.GRAPH_DIR_UP >>= RevDir) = Except.ok GraphDir.GRAPH_DIR_UP ∧
    (RevDir GraphDir.GRAPH_DIR_DOWN >>= RevDir) = Except.ok GraphDir.GRAPH_DIR_DOWN ∧
    (∀ d : GraphDir, ∃ r, RevDir d = Except.ok r) ∧
    (∀ d : GraphDir, RevDir d ≠ Except.error Fatal.assertionFailed) := by
  refine ⟨rfl, rfl, ?_, ?_, rfl, rfl, ?_, ?_⟩
  · intro h; cases h
  · intro h; cases h
  · intro d; cases d <;> exact ⟨_, rfl⟩
  · intro d h; cases d <;> cases h

/-- C14: `spacing` is symmetric in the two node types. For two nodes whose
types are Simple or Control, the spacing of the first placed after a node of
the type of the second equals the spacing of the second placed after a node of
the type of the first. -/
theorem spacing_symmetric {Q : Type} [Zero Q] (m : Margins Q) (n1 n2 : AuxNode)
    (h1 : n1.type = AuxNodeType.AUX_NODE_SIMPLE ∨ n1.type = AuxNodeType.AUX_EDGE_CONTROL)
    (h2 : n2.type = AuxNodeType.AUX_NODE_SIMPLE ∨ n2.type = AuxNodeType.AUX_EDGE_CONTROL) :
    n1.spacing m n2.type = n2.spacing m n1.type := by
  unfold AuxNode.type at h1 h2 ⊢
  rcases h1 with h1 | h1 <;> rcases h2 with h2 | h2 <;> simp [AuxNode.spacing, h1, h2]

/-- Witness of C14: a Simple node and a Control node, with the margins 30, 20
and 10. -/
theorem spacing_symmetric_witness :
    (AuxNode.new 0 0).spacing (⟨30, 20, 10⟩ : Margins Int)
        ((AuxNode.new 1 0).setTypeEdgeControl).type
      = ((AuxNode.new 1 0).setTypeEdgeControl).spacing (⟨30, 20, 10⟩ : Margins Int)
          (AuxNode.new 0 0).type :=
  spacing_symmetric (⟨30, 20, 10⟩ : Margins Int) (AuxNode.new 0 0)
    ((AuxNode.new 1 0).setTypeEdgeControl) (Or.inl rfl) (Or.inr rfl)

/-- C15: with `prev_type` equal to AUX_NODE_TYPES_NUM `spacing` returns 0
whatever the type of the node is; for each of the three values of `AuxNodeType`
the body of `spacing` returns from inside the switch, never from the statement
`return NODE_NODE_MARGIN;` after it, and the result is that of `spacing`. -/
theorem spacing_without_predecessor {Q : Type} [Zero Q] (m : Margins Q) (n : AuxNode) :
    n.spacing m AuxNodeType.AUX_NODE_TYPES_NUM = 0 ∧
    (∀ t : AuxNodeType, (n.setType t).spacing m AuxNodeType.AUX_NODE_TYPES_NUM = 0) ∧
    (∀ prev_type : AuxNodeType,
      n.spacingOfValue m prev_type.toNat = (n.spacing m prev_type, false)) := by
  refine ⟨rfl, fun _ => rfl, ?_⟩
  intro prev_type
  cases prev_type <;>
    simp only [AuxNodeType.toNat, AuxNode.spacingOfValue, AuxNode.spacing] <;>
    split <;> rfl

/-! ### The IL0 dump parser -/

theorem Graph.newEdge_ok_inv (g g1 : Graph) (pred succ : Option NodePtr) (e : Edge)
    (h : g.newEdge pred succ = Except.ok (g1, e)) :
    ∃ p s, pred = some p ∧ succ = some s ∧
      g1.edge_list = { id := toInt g.edge_next_id, pred := p, succ := s } :: g.edge_list ∧
      g1.node_list = g.node_list := by
  unfold Graph.newEdge Graph.newEdgeImpl at h
  by_cases ha : g.edge_next_id < GRAPH_MAX_NODE_NUM
  · rw [if_pos ha] at h
    cases pred with
    | none => simp [Graph.createEdge, Edge.new] at h
    | some p =>
      cases succ with
      | none => simp [Graph.createEdge, Edge.new] at h
      | some s =>
        simp only [Graph.createEdge, Edge.new, Except.ok.injEq, Prod.mk.injEq] at h
        refine ⟨p, s, rfl, rfl, ?_, ?_⟩
        · rw [← h.1]
        · rw [← h.1]
  · rw [if_neg ha] at h
    cases h

theorem Graph.newNode_ok_inv (g g1 : Graph) (n : Node) (h : g.newNode = Except.ok (g1, n)) :
    g1.node_list = n :: g.node_list ∧ g1.edge_list = g.edge_list := by
  by_cases ha : g.edge_next_id < GRAPH_MAX_NODE_NUM
  · rw [Graph.newNode_ok g ha] at h
    simp only [Except.ok.injEq, Prod.mk.injEq] at h
    rw [← h.1, ← h.2]
    exact ⟨rfl, rfl⟩
  · unfold Graph.newNode at h
    rw [Graph.newNodeImpl_assertion g _ ha] at h
    cases h

theorem symtabFind_set (t : List (String × SymObj)) (name k : String) (obj : SymObj) :
    symtabFind (symtabSet t name obj) k = if name = k then some obj else symtabFind t k := rfl

theorem symtabFind_eq_none_iff (t : List (String × SymObj)) (k : String) :
    symtabFind t k = none ↔ k ∉ t.map Prod.fst := by
  induction t with
  | nil => simp [symtabFind]
  | cons kv rest ih =>
    obtain ⟨k1, v⟩ := kv
    by_cases hk : k1 = k
    · simp [symtabFind, hk]
    · have hk2 : ¬ k = k1 := fun h => hk h.symm
      simp [symtabFind, hk, hk2, ih]

theorem symtabNode_of_find_none (t : List (String × SymObj)) (k : String)
    (h : symtabFind t k = none) : symtabNode t k = none := by
  simp [symtabNode, h]

theorem toString_of_nodeSymName (p q : Int) (h : nodeSymName p = nodeSymName q) :
    toString p = toString q := by
  unfold nodeSymName at h
  have h1 := congrArg String.data h
  simp only [String.data_append] at h1
  exact String.ext (List.append_cancel_left h1)

theorem edgeSymName_of_nodeSymName (p q s r : Int) (h1 : nodeSymName p = nodeSymName q)
    (h2 : nodeSymName s = nodeSymName r) : edgeSymName p s = edgeSymName q r := by
  unfold edgeSymName
  rw [toString_of_nodeSymName p q h1, toString_of_nodeSymName s r h2]

theorem TestParser.Inv_init : TestParser.Inv TestParser.init := by
  refine ⟨?_, ?_, ?_, ?_, ?_, ?_⟩
  · intro k p h; simp [TestParser.init, symtabNode, symtabFind] at h
  · intro k1 k2 p h; simp [TestParser.init, symtabNode, symtabFind] at h
  · intro e he; simp [TestParser.init, Graph.new] at he
  · simp [TestParser.edgeEnds, TestParser.init, Graph.new]
  · simp [TestParser.init]
  · simp [TestParser.init, Graph.new]

theorem symtabNode_set_edge (t : List (String × SymObj)) (name a b k : String) :
    symtabNode (symtabSet t name (SymObj.edge name a b)) k
      = if name = k then none else symtabNode t k := by
  unfold symtabNode
  rw [symtabFind_set]
  by_cases h : name = k <;> simp [h]

theorem symtabNode_set_node (t : List (String × SymObj)) (name k : String)
    (q : Option NodePtr) :
    symtabNode (symtabSet t name (SymObj.node name q)) k
      = if name = k then q else symtabNode t k := by
  unfold symtabNode
  rw [symtabFind_set]
  by_cases h : name = k <;> simp [h]

theorem TestParser.addEdge_guard_false (st : TestParser) (name pred_name succ_name : String)
    (h : ¬ (symtabFind st.symtab name = none
      ∧ symtabFind st.symtab pred_name ≠ none
      ∧ symtabFind st.symtab succ_name ≠ none)) :
    st.addEdge name pred_name succ_name = Except.ok st := by
  unfold TestParser.addEdge
  rw [if_neg h]

theorem TestParser.Inv_addEdge (st st1 : TestParser) (p s : Int) (hinv : st.Inv)
    (h : st.addEdge (edgeSymName p s) (nodeSymName p) (nodeSymName s) = Except.ok st1) :
    st1.Inv := by
  unfold TestParser.addEdge at h
  split at h
  · rename_i hg
    obtain ⟨hname, -, -⟩ := hg
    dsimp only at h
    split at h
    · cases h
    · rename_i g e hne
      simp only [Except.ok.injEq] at h
      obtain ⟨pp, sp, hpp, hsp, hel, hnl⟩ := Graph.newEdge_ok_inv _ _ _ _ _ hne
      rw [symtabNode_set_edge] at hpp hsp
      have hnone := symtabNode_of_find_none _ _ hname
      have hpk : ¬ edgeSymName p s = nodeSymName p := by
        intro hk; rw [if_pos hk] at hpp; cases hpp
      have hsk : ¬ edgeSymName p s = nodeSymName s := by
        intro hk; rw [if_pos hk] at hsp; cases hsp
      rw [if_neg hpk] at hpp
      rw [if_neg hsk] at hsp
      have hH : ∀ k q, symtabNode (symtabSet st.symtab (edgeSymName p s)
          (SymObj.edge (edgeSymName p s) (nodeSymName p) (nodeSymName s))) k = some q →
          symtabNode st.symtab k = some q := by
        intro k q hk
        rw [symtabNode_set_edge] at hk
        by_cases hkn : edgeSymName p s = k
        · rw [if_pos hkn] at hk; cases hk
        · rw [if_neg hkn] at hk; exact hk
      have hG : ∀ k q, symtabNode st.symtab k = some q →
          symtabNode (symtabSet st.symtab (edgeSymName p s)
            (SymObj.edge (edgeSymName p s) (nodeSymName p) (nodeSymName s))) k = some q := by
        intro k q hk
        rw [symtabNode_set_edge]
        by_cases hkn : edgeSymName p s = k
        · rw [← hkn, hnone] at hk; cases hk
        · rw [if_neg hkn]; exact hk
      subst h
      refine ⟨?_, ?_, ?_, ?_, ?_, ?_⟩
      · intro k q hk
        show q < g.node_list.length
        rw [hnl]
        exact hinv.node_bound k q (hH k q hk)
      · intro k1 k2 q hk1 hk2
        exact hinv.node_inj k1 k2 q (hH k1 q hk1) (hH k2 q hk2)
      · intro e0 he0
        change e0 ∈ g.edge_list at he0
        rw [hel, List.mem_cons] at he0
        rcases he0 with he0 | he0
        · refine ⟨p, s, ?_, ?_, ?_⟩
          · rw [he0]; exact hG _ _ hpp
          · rw [he0]; exact hG _ _ hsp
          · show symtabFind (symtabSet st.symtab _ _) (edgeSymName p s) ≠ none
            rw [symtabFind_set, if_pos rfl]
            exact Option.some_ne_none _
        · obtain ⟨p0, s0, h1, h2, h3⟩ := hinv.edge_sym e0 he0
          refine ⟨p0, s0, hG _ _ h1, hG _ _ h2, ?_⟩
          show symtabFind (symtabSet st.symtab _ _) (edgeSymName p0 s0) ≠ none
          rw [symtabFind_set]
          by_cases hkn : edgeSymName p s = edgeSymName p0 s0
          · rw [if_pos hkn]; exact Option.some_ne_none _
          · rw [if_neg hkn]; exact h3
      · show (List.map (fun e => (e.pred, e.succ)) g.edge_list).Nodup
        rw [hel, List.map_cons, List.nodup_cons]
        refine ⟨?_, hinv.ends_nodup⟩
        intro hmem
        rw [List.mem_map] at hmem
        obtain ⟨e0, he0, heq⟩ := hmem
        simp only [Prod.mk.injEq] at heq
        obtain ⟨p0, s0, h1, h2, h3⟩ := hinv.edge_sym e0 he0
        rw [heq.1] at h1
        rw [heq.2] at h2
        have e1 := hinv.node_inj _ _ _ h1 hpp
        have e2 := hinv.node_inj _ _ _ h2 hsp
        rw [edgeSymName_of_nodeSymName p0 p s0 s e1 e2] at h3
        exact h3 hname
      · show (List.map Prod.fst (symtabSet st.symtab _ _)).Nodup
        simp only [symtabSet, List.map_cons, List.nodup_cons]
        exact ⟨(symtabFind_eq_none_iff _ _).1 hname, hinv.keys_nodup⟩
      · show g.edge_list.length = (List.filter (fun kv => kv.2.isEdge)
          (symtabSet st.symtab _ _)).length
        rw [hel]
        show _ = (List.filter (fun kv => kv.2.isEdge)
          ((edgeSymName p s, SymObj.edge (edgeSymName p s) (nodeSymName p) (nodeSymName s))
            :: st.symtab)).length
        rw [List.filter_cons_of_pos (by rfl), List.length_cons, List.length_cons,
          hinv.edge_count]
  · simp only [Except.ok.injEq] at h
    rw [← h]
    exact hinv

theorem TestParser.Inv_parseNode (st st1 : TestParser) (cap : String) (hinv : st.Inv)
    (h : st.parseNode cap = Except.ok st1) : st1.Inv := by
  unfold TestParser.parseNode at h
  dsimp only at h
  split at h
  · rename_i hname
    split at h
    · cases h
    · rename_i g n hnn
      simp only [Except.ok.injEq] at h
      obtain ⟨hnl, hel⟩ := Graph.newNode_ok_inv _ _ _ hnn
      have hnone := symtabNode_of_find_none _ _ hname
      have hG : ∀ k q, symtabNode st.symtab k = some q →
          symtabNode (symtabSet st.symtab ("Node " ++ cap)
            (SymObj.node ("Node " ++ cap) (some st.graph.node_list.length))) k = some q := by
        intro k q hk
        rw [symtabNode_set_node]
        by_cases hkn : "Node " ++ cap = k
        · rw [← hkn, hnone] at hk; cases hk
        · rw [if_neg hkn]; exact hk
      subst h
      refine ⟨?_, ?_, ?_, ?_, ?_, ?_⟩
      · intro k q hk
        change symtabNode (symtabSet st.symtab _ _) k = some q at hk
        show q < g.node_list.length
        rw [hnl, List.length_cons]
        rw [symtabNode_set_node] at hk
        by_cases hkn : "Node " ++ cap = k
        · rw [if_pos hkn] at hk
          simp only [Option.some.injEq] at hk
          rw [← hk]
          exact Nat.lt_succ_self _
        · rw [if_neg hkn] at hk
          exact Nat.lt_succ_of_lt (hinv.node_bound k q hk)
      · intro k1 k2 q hk1 hk2
        change symtabNode (symtabSet st.symtab _ _) k1 = some q at hk1
        change symtabNode (symtabSet st.symtab _ _) k2 = some q at hk2
        rw [symtabNode_set_node] at hk1 hk2
        by_cases h1 : "Node " ++ cap = k1
        · by_cases h2 : "Node " ++ cap = k2
          · rw [← h1, ← h2]
          · rw [if_pos h1] at hk1
            rw [if_neg h2] at hk2
            simp only [Option.some.injEq] at hk1
            have hlt := hinv.node_bound k2 q hk2
            rw [← hk1] at hlt
            exact absurd hlt (Nat.lt_irrefl _)
        · by_cases h2 : "Node " ++ cap = k2
          · rw [if_neg h1] at hk1
            rw [if_pos h2] at hk2
            simp only [Option.some.injEq] at hk2
            have hlt := hinv.node_bound k1 q hk1
            rw [← hk2] at hlt
            exact absurd hlt (Nat.lt_irrefl _)
          · rw [if_neg h1] at hk1
            rw [if_neg h2] at hk2
            exact hinv.node_inj k1 k2 q hk1 hk2
      · intro e0 he0
        change e0 ∈ g.edge_list at he0
        rw [hel] at he0
        obtain ⟨p0, s0, h1, h2, h3⟩ := hinv.edge_sym e0 he0
        refine ⟨p0, s0, hG _ _ h1, hG _ _ h2, ?_⟩
        show symtabFind (symtabSet st.symtab _ _) (edgeSymName p0 s0) ≠ none
        rw [symtabFind_set]
        by_cases hkn : "Node " ++ cap = edgeSymName p0 s0
        · rw [if_pos hkn]; exact Option.some_ne_none _
        · rw [if_neg hkn]; exact h3
      · show (List.map (fun e => (e.pred, e.succ)) g.edge_list).Nodup
        rw [hel]
        exact hinv.ends_nodup
      · show (List.map Prod.fst (symtabSet st.symtab _ _)).Nodup
        simp only [symtabSet, List.map_cons, List.nodup_cons]
        exact ⟨(symtabFind_eq_none_iff _ _).1 hname, hinv.keys_nodup⟩
      · show g.edge_list.length = (List.filter (fun kv => kv.2.isEdge)
          (("Node " ++ cap, SymObj.node ("Node " ++ cap) (some st.graph.node_list.length))
            :: st.symtab)).length
        rw [hel, List.filter_cons_of_neg (by simp [SymObj.isEdge]), hinv.edge_count]
  · simp only [Except.ok.injEq] at h
    rw [← h]
    exact hinv

theorem TestParser.Inv_parsePreds (ir0 : Int) (caps : List String) :
    ∀ st st1 : TestParser, st.Inv → TestParser.parsePreds ir0 st caps = Except.ok st1 →
      st1.Inv := by
  induction caps with
  | nil =>
    intro st st1 hinv h
    simp only [TestParser.parsePreds, Except.ok.injEq] at h
    rw [← h]; exact hinv
  | cons cap rest ih =>
    intro st st1 hinv h
    unfold TestParser.parsePreds at h
    split at h
    · cases h
    · dsimp only at h
      split at h
      · cases h
      · rename_i st2 hadd
        exact ih st2 st1 (TestParser.Inv_addEdge st st2 _ _ hinv hadd) h

theorem TestParser.Inv_parseSuccs (ir0 : Int) (caps : List String) :
    ∀ st st1 : TestParser, st.Inv → TestParser.parseSuccs ir0 st caps = Except.ok st1 →
      st1.Inv := by
  induction caps with
  | nil =>
    intro st st1 hinv h
    simp only [TestParser.parseSuccs, Except.ok.injEq] at h
    rw [← h]; exact hinv
  | cons cap rest ih =>
    intro st st1 hinv h
    unfold TestParser.parseSuccs at h
    split at h
    · cases h
    · dsimp only at h
      split at h
      · cases h
      · rename_i st2 hadd
        exact ih st2 st1 (TestParser.Inv_addEdge st st2 _ _ hinv hadd) h

theorem TestParser.Inv_parseLineIL0 (ir0 : Int) (st st1 : TestParser) (line : Line)
    (hinv : st.Inv) (h : TestParser.parseLineIL0 ir0 st line = Except.ok st1) : st1.Inv := by
  cases line with
  | preds caps => exact TestParser.Inv_parsePreds ir0 caps st st1 hinv h
  | succs caps => exact TestParser.Inv_parseSuccs ir0 caps st st1 hinv h
  | node cap => exact TestParser.Inv_parseNode st st1 cap hinv h
  | other =>
    simp only [TestParser.parseLineIL0, Except.ok.injEq] at h
    rw [← h]; exact hinv

theorem TestParser.Inv_parseLines (ir0 : Int) (lines : List Line) :
    ∀ st st1 : TestParser, st.Inv → TestParser.parseLines ir0 st lines = Except.ok st1 →
      st1.Inv := by
  induction lines with
  | nil =>
    intro st st1 hinv h
    simp only [TestParser.parseLines, Except.ok.injEq] at h
    rw [← h]; exact hinv
  | cons line rest ih =>
    intro st st1 hinv h
    unfold TestParser.parseLines at h
    split at h
    · cases h
    · rename_i st2 hline
      exact ih st2 st1 (TestParser.Inv_parseLineIL0 ir0 st st2 line hinv hline) h

theorem filter_length_le_one_of_nodup_map {α β : Type} (f : α → β) (x : β)
    (P : α → Bool) (l : List α) (hnd : (l.map f).Nodup)
    (hP : ∀ e ∈ l, P e = true → f e = x) : (l.filter P).length ≤ 1 := by
  induction l with
  | nil => simp
  | cons e rest ih =>
    rw [List.map_cons, List.nodup_cons] at hnd
    have hrest : ∀ e0 ∈ rest, P e0 = true → f e0 = x :=
      fun e0 he0 => hP e0 (List.mem_cons_of_mem _ he0)
    by_cases hPe : P e = true
    · have hnil : rest.filter P = [] := by
        rw [List.filter_eq_nil_iff]
        intro e0 he0 hPe0
        apply hnd.1
        rw [List.mem_map]
        refine ⟨e0, he0, ?_⟩
        rw [hrest e0 he0 hPe0, hP e (List.mem_cons_self _ _) hPe]
      rw [List.filter_cons_of_pos hPe, hnil]
      simp
    · rw [List.filter_cons_of_neg hPe]
      exact ih hnd.2 hrest

theorem TestParser.parsePreds_single (ir0 : Int) (st : TestParser) (c : NodePtr)
    (cap : String) (hc : st.curr_node = some c) :
    TestParser.parsePreds ir0 st [cap] =
      st.addEdge (edgeSymName (qToInt cap).1 (TestParser.irId ir0 st.ir_ids c))
        (nodeSymName (qToInt cap).1) (nodeSymName (TestParser.irId ir0 st.ir_ids c)) := by
  simp only [TestParser.parsePreds, hc]
  split <;> rename_i heq <;> rw [heq]

theorem TestParser.parseSuccs_single (ir0 : Int) (st : TestParser) (c : NodePtr)
    (cap : String) (hc : st.curr_node = some c) :
    TestParser.parseSuccs ir0 st [cap] =
      st.addEdge (edgeSymName (TestParser.irId ir0 st.ir_ids c) (qToInt cap).1)
        (nodeSymName (TestParser.irId ir0 st.ir_ids c)) (nodeSymName (qToInt cap).1) := by
  simp only [TestParser.parseSuccs, hc]
  split <;> rename_i heq <;> rw [heq]

/-- C13: the IL0 dump parser creates no duplicate edges. In every state that
`parseLineIL0` reaches from a parser with an empty symbol table and a new
graph, over any sequence of lines: no two edges of the graph have the same
ends; every edge joins the nodes of two symbols `Node p` and `Node s` for
which the symbol `p->s` is in the table, and for each ordered pair of numbers
`(p, s)` at most one edge does so; no name is bound twice and there are as
many edges as edge symbols. A number `p` on a `preds:` line of block `s` and a
number `s` on a `succs:` line of block `p` lead to the same call with the name
`p->s`, and that call leaves the parser as it is unless the name is not yet in
the table and both `Node p` and `Node s` are. -/
theorem parser_creates_no_duplicate_edges (ir0 : Int) (lines : List Line) (st : TestParser)
    (hrun : TestParser.parseLines ir0 TestParser.init lines = Except.ok st) :
    st.edgeEnds.Nodup ∧
    (∀ e ∈ st.graph.edge_list, ∃ p s : Int,
      symtabNode st.symtab (nodeSymName p) = some e.pred ∧
      symtabNode st.symtab (nodeSymName s) = some e.succ ∧
      symtabFind st.symtab (edgeSymName p s) ≠ none) ∧
    (∀ p s : Int,
      (st.graph.edge_list.filter (fun e =>
        decide (symtabNode st.symtab (nodeSymName p) = some e.pred ∧
                symtabNode st.symtab (nodeSymName s) = some e.succ))).length ≤ 1) ∧
    (st.symtab.map Prod.fst).Nodup ∧
    st.graph.edge_list.length = (st.symtab.filter (fun kv => kv.2.isEdge)).length ∧
    (∀ (st0 : TestParser) (c : NodePtr) (cap : String), st0.curr_node = some c →
      TestParser.parsePreds ir0 st0 [cap] =
        st0.addEdge (edgeSymName (qToInt cap).1 (TestParser.irId ir0 st0.ir_ids c))
          (nodeSymName (qToInt cap).1) (nodeSymName (TestParser.irId ir0 st0.ir_ids c)) ∧
      TestParser.parseSuccs ir0 st0 [cap] =
        st0.addEdge (edgeSymName (TestParser.irId ir0 st0.ir_ids c) (qToInt cap).1)
          (nodeSymName (TestParser.irId ir0 st0.ir_ids c)) (nodeSymName (qToInt cap).1)) ∧
    (∀ (st0 : TestParser) (name pred_name succ_name : String),
      ¬ (symtabFind st0.symtab name = none
          ∧ symtabFind st0.symtab pred_name ≠ none
          ∧ symtabFind st0.symtab succ_name ≠ none) →
        st0.addEdge name pred_name succ_name = Except.ok st0) := by
  have hinv := TestParser.Inv_parseLines ir0 lines TestParser.init st TestParser.Inv_init hrun
  refine ⟨hinv.ends_nodup, hinv.edge_sym, ?_, hinv.keys_nodup, hinv.edge_count, ?_, ?_⟩
  · intro p s
    cases hp : symtabNode st.symtab (nodeSymName p) with
    | none => simp
    | some pp =>
      cases hs : symtabNode st.symtab (nodeSymName s) with
      | none => simp
      | some sp =>
        refine filter_length_le_one_of_nodup_map (fun e : Edge => (e.pred, e.succ)) (pp, sp)
          _ st.graph.edge_list hinv.ends_nodup ?_
        intro e _ he
        simp only [Option.some.injEq, decide_eq_true_eq] at he
        rw [he.1, he.2]
  · intro st0 c cap hc
    exact ⟨TestParser.parsePreds_single ir0 st0 c cap hc,
      TestParser.parseSuccs_single ir0 st0 c cap hc⟩
  · intro st0 name pred_name succ_name hg
    exact TestParser.addEdge_guard_false st0 name pred_name succ_name hg

/-- Witness of C13: block 1 with the line `succs: 1` and then the line
`preds: 1`. The first line creates the edge of the symbol `1->1`, the second
finds the symbol and creates nothing. -/
theorem parser_creates_no_duplicate_edges_witness :
    TestParser.parseLines 0 TestParser.init
        [Line.node "1", Line.succs ["1"], Line.preds ["1"]]
      = Except.ok
          { symtab := [("1->1", SymObj.edge "1->1" "Node 1" "Node 1"),
                       ("Node 1", SymObj.node "Node 1" (some 0))]
            curr_node := some 0
            graph := { node_next_id := 1, edge_next_id := 1, node_num := 1, edge_num := 1
                       node_list := [{ id := 0 }]
                       edge_list := [{ id := 0, pred := 0, succ := 0 }] }
            ir_ids := [(0, 1)] } ∧
    (TestParser.edgeEnds
          { symtab := [("1->1", SymObj.edge "1->1" "Node 1" "Node 1"),
                       ("Node 1", SymObj.node "Node 1" (some 0))]
            curr_node := some 0
            graph := { node_next_id := 1, edge_next_id := 1, node_num := 1, edge_num := 1
                       node_list := [{ id := 0 }]
                       edge_list := [{ id := 0, pred := 0, succ := 0 }] }
            ir_ids := [(0, 1)] }).Nodup :=
  ⟨by rfl,
   (parser_creates_no_duplicate_edges 0
      [Line.node "1", Line.succs ["1"], Line.preds ["1"]] _ (by rfl)).1⟩

end ShowGraph
